import Mathlib

/-!
Shallow embedding of `CryptoPlus/Util/padding.py`.

Byte strings (`bytes` / `bytearray`) are modelled as `List Nat`; Python
integer arithmetic is modelled on `Int`, with Python's `%` (floor modulus,
sign of the divisor) as `Int.fmod` and `x % 0` raising `ZeroDivisionError`.
Fallible operations return `Except PyError _`.
-/

namespace Padding

/-- A Python byte string: a list of byte values. -/
abbrev ByteSeq := List Nat

/-- The Python exceptions the padding module can raise. -/
inductive PyError where
  /-- `ValueError("Supply a valid length")`, raised when `length is None` on pad. -/
  | valueErrorLength
  /-- `ValueError("Supply a valid direction")`, raised on an unrecognized direction. -/
  | valueErrorDirection
  /-- `ValueError` raised by `bytearray([v])` when `v` is outside `range(0, 256)`. -/
  | valueErrorByteRange
  /-- `ZeroDivisionError`, raised by `x % 0`. -/
  | zeroDivisionError
  /-- `IndexError`, raised when indexing into an empty byte string. -/
  | indexError
  /-- `TypeError`, raised by `bytes.count` when given a `str` argument. -/
  | typeError
deriving DecidableEq, Repr

/-- Python `a % b` on integers: floor modulus; raises on a zero divisor. -/
def pyMod (a b : Int) : Except PyError Int :=
  if b = 0 then .error .zeroDivisionError else .ok (Int.fmod a b)

/-- Python sequence repetition `s * k` (empty for `k ≤ 0`). -/
def pyRepeat (s : ByteSeq) (k : Int) : ByteSeq :=
  (List.replicate k.toNat s).flatten

/-- Python `bytearray([v])`: a one-byte string; raises `ValueError` unless `0 ≤ v < 256`. -/
def byteLit (v : Int) : Except PyError ByteSeq :=
  if 0 ≤ v ∧ v < 256 then .ok [v.toNat] else .error .valueErrorByteRange

/-- Normalize a Python slice index against a sequence of length `len`:
negative indices count from the end, and the result is clamped to `[0, len]`. -/
def pyIdx (len : Nat) (i : Int) : Nat :=
  if i < 0 then ((len : Int) + i).toNat else min i.toNat len

/-- Python slice `s[a:b]`. -/
def pySlice (s : ByteSeq) (a b : Int) : ByteSeq :=
  (s.take (pyIdx s.length b)).drop (pyIdx s.length a)

/-- Python indexing `s[i]` (negative indices from the end); raises `IndexError`
when out of range. -/
def pyGet (s : ByteSeq) (i : Int) : Except PyError Nat :=
  let j : Int := if i < 0 then (s.length : Int) + i else i
  if 0 ≤ j ∧ j < (s.length : Int) then .ok (s.getD j.toNat 0) else .error .indexError

/-- Python `s.rstrip(b'\x00')`: remove all trailing zero bytes. -/
def rstripZero (s : ByteSeq) : ByteSeq :=
  (s.reverse.dropWhile (· == 0)).reverse

/-- Python `s.count(b'\x00', a, b)`: the number of zero bytes in the slice `s[a:b]`. -/
def pyCountZero (s : ByteSeq) (a b : Int) : Nat :=
  (pySlice s a b).count 0

/-- Python `s.count(chr(0), a, b)` on a bytes object: passing a `str` pattern to
`bytes.count` raises `TypeError` regardless of the other arguments. -/
def pyCountChr (_s : ByteSeq) (_a _b : Int) : Except PyError Nat :=
  .error .typeError

/-- The module constant `PAD = 0`. -/
def PAD : Int := 0

/-- The module constant `UNPAD = 1`. -/
def UNPAD : Int := 1

/-! ### Bit padding -/

/-- `__bit_padding(to_pad, length)`:
`to_pad + b'\x80' + b'\x00' * (length - len(to_pad) % length - 1)`. -/
def __bit_padding (to_pad : ByteSeq) (length : Int) : Except PyError ByteSeq := do
  let m ← pyMod to_pad.length length
  .ok (to_pad ++ [0x80] ++ pyRepeat [0x00] (length - m - 1))

/-- `__bit_padding_unpad(padded)`: strip trailing zeros; if the byte before them
is `0x80` drop it and return the rest, otherwise return the input unchanged. -/
def __bit_padding_unpad (padded : ByteSeq) : ByteSeq :=
  if pySlice (rstripZero padded) (-1) ((rstripZero padded).length : Int) = [0x80] then
    pySlice (rstripZero padded) 0 (-1)
  else
    padded

/-- `bit_padding(pad_data, direction, length=None)`: dispatch. -/
def bit_padding (pad_data : ByteSeq) (direction : Int) (length : Option Int) :
    Except PyError ByteSeq :=
  if direction = PAD then
    match length with
    | none => .error .valueErrorLength
    | some l => __bit_padding pad_data l
  else if direction = UNPAD then
    .ok (__bit_padding_unpad pad_data)
  else
    .error .valueErrorDirection

/-! ### Zero padding -/

/-- `__zeros_padding(toPad, length)`: append `(length - len(toPad)) % length`
zero bytes. -/
def __zeros_padding (toPad : ByteSeq) (length : Int) : Except PyError ByteSeq := do
  let pad_length ← pyMod ((length : Int) - toPad.length) length
  .ok (toPad ++ pyRepeat [0x00] pad_length)

/-- `__zeros_padding_unpad(padded)`: `padded.rstrip(b'\x00')`. -/
def __zeros_padding_unpad (padded : ByteSeq) : ByteSeq :=
  rstripZero padded

/-- `zeros_padding(pad_data, direction, length=None)`: dispatch. -/
def zeros_padding (pad_data : ByteSeq) (direction : Int) (length : Option Int) :
    Except PyError ByteSeq :=
  if direction = PAD then
    match length with
    | none => .error .valueErrorLength
    | some l => __zeros_padding pad_data l
  else if direction = UNPAD then
    .ok (__zeros_padding_unpad pad_data)
  else
    .error .valueErrorDirection

/-! ### PKCS7 -/

/-- `__PKCS7(to_pad, length)`: `amount = length - len(to_pad) % length`, then
append `bytearray([amount]) * amount`. -/
def __PKCS7 (to_pad : ByteSeq) (length : Int) : Except PyError ByteSeq := do
  let m ← pyMod to_pad.length length
  let amount := length - m
  let pattern ← byteLit amount
  .ok (to_pad ++ pyRepeat pattern amount)

/-- `__PKCS7_unpad(padded)`: read the last byte as the pad length, check that the
input ends with that byte repeated that many times; on success strip them, on
mismatch print a warning and return the input unchanged. -/
def __PKCS7_unpad (padded : ByteSeq) : Except PyError ByteSeq := do
  let pattern := pySlice padded (-1) (padded.length : Int)
  let length ← pyGet pattern 0
  if (pyRepeat pattern (length : Int)).isSuffixOf padded then
    .ok (pySlice padded 0 (-(length : Int)))
  else
    -- the source prints 'error: padding pattern not recognized' and returns
    -- the input unchanged
    .ok padded

/-- `PKCS7(pad_data, direction, length=None)`: dispatch. -/
def PKCS7 (pad_data : ByteSeq) (direction : Int) (length : Option Int) :
    Except PyError ByteSeq :=
  if direction = PAD then
    match length with
    | none => .error .valueErrorLength
    | some l => __PKCS7 pad_data l
  else if direction = UNPAD then
    __PKCS7_unpad pad_data
  else
    .error .valueErrorDirection

/-! ### ANSI X9.23 -/

/-- `__ANSI_X923(to_pad, length)`: `bytesToPad = length - len(to_pad) % length`,
append `bytesToPad - 1` zero bytes and one trailer byte `bytesToPad`. -/
def __ANSI_X923 (to_pad : ByteSeq) (length : Int) : Except PyError ByteSeq := do
  let m ← pyMod to_pad.length length
  let bytesToPad := length - m
  let trail ← byteLit bytesToPad
  .ok (to_pad ++ (pyRepeat [0x00] (bytesToPad - 1) ++ trail))

/-- `__ANSI_X923_unpad(padded)`: read the trailer byte as the pad length, check
that the `length - 1` bytes before it are zero and strip; on mismatch the
diagnostic message evaluates `padded.count(chr(0), -length, -1)`, which raises
`TypeError` (a `str` pattern against a bytes object). -/
def __ANSI_X923_unpad (padded : ByteSeq) : Except PyError ByteSeq := do
  let length ← pyGet padded (-1)
  if (pyCountZero padded (-(length : Int)) (-1) : Int) = (length : Int) - 1 then
    .ok (pySlice padded 0 (-(length : Int)))
  else do
    let _ ← pyCountChr padded (-(length : Int)) (-1)
    .ok padded

/-- `ANSI_X923(pad_data, direction, length=None)`: dispatch. -/
def ANSI_X923 (pad_data : ByteSeq) (direction : Int) (length : Option Int) :
    Except PyError ByteSeq :=
  if direction = PAD then
    match length with
    | none => .error .valueErrorLength
    | some l => __ANSI_X923 pad_data l
  else if direction = UNPAD then
    __ANSI_X923_unpad pad_data
  else
    .error .valueErrorDirection

/-! ### ISO 10126 -/

/-- `__ISO_10126(toPad, length)`: append `bytes_to_pad - 1` random filler bytes
and one trailer byte `bytes_to_pad`. The stream of `random.randint(0, 255)`
draws is modelled by the parameter `rnd`, reduced mod 256 to reflect its range. -/
def __ISO_10126 (toPad : ByteSeq) (length : Int) (rnd : Nat → Nat) :
    Except PyError ByteSeq := do
  let m ← pyMod toPad.length length
  let bytes_to_pad := length - m
  let random_pattern := (List.range (bytes_to_pad - 1).toNat).map (fun x => rnd x % 256)
  let trail ← byteLit bytes_to_pad
  .ok (toPad ++ random_pattern ++ trail)

/-- `__ISO_10126_unpad(padded)`: `padded[0:len(padded) - bytearray(padded)[-1]]`. -/
def __ISO_10126_unpad (padded : ByteSeq) : Except PyError ByteSeq := do
  let amount ← pyGet padded (-1)
  .ok (pySlice padded 0 ((padded.length : Int) - amount))

/-- `ISO_10126(pad_data, direction, length=None)`: dispatch. -/
def ISO_10126 (pad_data : ByteSeq) (direction : Int) (length : Option Int)
    (rnd : Nat → Nat) : Except PyError ByteSeq :=
  if direction = PAD then
    match length with
    | none => .error .valueErrorLength
    | some l => __ISO_10126 pad_data l rnd
  else if direction = UNPAD then
    __ISO_10126_unpad pad_data
  else
    .error .valueErrorDirection

/-! ### Arithmetic and list helper lemmas -/

theorem fmod_coe_nat (a n : Nat) : Int.fmod (a : Int) (n : Int) = ((a % n : Nat) : Int) :=
  (Int.ofNat_fmod a n).symm

theorem pyMod_coe (a n : Nat) (h : 1 ≤ n) : pyMod (a : Int) (n : Int) = .ok ((a % n : Nat) : Int) := by
  unfold pyMod
  rw [if_neg (by omega), fmod_coe_nat]

theorem flatten_replicate_singleton (n : Nat) (c : Nat) :
    (List.replicate n ([c] : ByteSeq)).flatten = List.replicate n c := by
  induction n with
  | zero => rfl
  | succ k ih => simp [List.replicate_succ, ih]

theorem pyRepeat_singleton (c : Nat) (k : Int) :
    pyRepeat [c] k = List.replicate k.toNat c := by
  unfold pyRepeat
  exact flatten_replicate_singleton _ _

theorem byteLit_ok (v : Int) (h0 : 0 ≤ v) (h1 : v < 256) : byteLit v = .ok [v.toNat] := by
  unfold byteLit
  rw [if_pos ⟨h0, h1⟩]

theorem byteLit_err (v : Int) (h : ¬(0 ≤ v ∧ v < 256)) : byteLit v = .error .valueErrorByteRange := by
  unfold byteLit
  rw [if_neg h]

theorem dropWhile_zero_replicate (k : Nat) (t : ByteSeq) :
    (List.replicate k 0 ++ t).dropWhile (· == 0) = t.dropWhile (· == 0) := by
  induction k with
  | zero => rfl
  | succ m ih => simp [List.replicate_succ, List.dropWhile_cons, ih]

theorem rstripZero_append_replicate (s : ByteSeq) (k : Nat) :
    rstripZero (s ++ List.replicate k 0) = rstripZero s := by
  unfold rstripZero
  rw [List.reverse_append, List.reverse_replicate, dropWhile_zero_replicate]

theorem rstripZero_append_ne (s : ByteSeq) (b : Nat) (hb : b ≠ 0) :
    rstripZero (s ++ [b]) = s ++ [b] := by
  unfold rstripZero
  rw [List.reverse_append]
  simp [List.dropWhile_cons, hb]

theorem rstripZero_eq_self (s : ByteSeq) (h : s.getLast? ≠ some 0) : rstripZero s = s := by
  induction s using List.reverseRecOn with
  | nil => rfl
  | append_singleton l b _ =>
      rw [List.getLast?_concat] at h
      exact rstripZero_append_ne l b (by simpa using h)

theorem getD_append_length (l : ByteSeq) (b : Nat) : (l ++ [b]).getD l.length 0 = b := by
  induction l with
  | nil => rfl
  | cons x xs ih => simp only [List.cons_append, List.length_cons, List.getD_cons_succ, ih]

theorem pyGet_last (l : ByteSeq) (b : Nat) : pyGet (l ++ [b]) (-1) = .ok b := by
  unfold pyGet
  have hlen : (l ++ [b]).length = l.length + 1 := by simp
  rw [if_pos (by constructor <;> simp [hlen])]
  have hj : ((((l ++ [b]).length : Int) + -1).toNat) = l.length := by omega
  rw [if_pos (by omega), hj, getD_append_length]

theorem pyIdx_neg (len : Nat) (i : Int) (h : i < 0) : pyIdx len i = ((len : Int) + i).toNat :=
  if_pos h

theorem pyIdx_nonneg (len : Nat) (i : Int) (h : 0 ≤ i) : pyIdx len i = min i.toNat len :=
  if_neg (by omega)

theorem pySlice_last (d : ByteSeq) (x : Nat) :
    pySlice (d ++ [x]) (-1) (((d ++ [x]).length : Nat) : Int) = [x] := by
  unfold pySlice
  have hlen : (d ++ [x]).length = d.length + 1 := by simp
  rw [pyIdx_neg ((d ++ [x]).length) (-1) (by omega),
      pyIdx_nonneg ((d ++ [x]).length) (((d ++ [x]).length : Nat) : Int) (by omega)]
  have h1 : (((d ++ [x]).length : Nat) : Int).toNat = (d ++ [x]).length := by omega
  have h2 : (((d ++ [x]).length : Int) + -1).toNat = d.length := by omega
  rw [h1, min_self, h2, List.take_length, List.drop_left' rfl]

theorem pySlice_prefix (d t : ByteSeq) (ht : t ≠ []) :
    pySlice (d ++ t) 0 (-(t.length : Int)) = d := by
  unfold pySlice
  have hlen : (d ++ t).length = d.length + t.length := by simp
  have htl : 1 ≤ t.length := by
    cases t with
    | nil => exact absurd rfl ht
    | cons _ _ => simp
  rw [pyIdx_nonneg ((d ++ t).length) 0 (by omega),
      pyIdx_neg ((d ++ t).length) (-(t.length : Int)) (by omega)]
  have h1 : (((d ++ t).length : Int) + -(t.length : Int)).toNat = d.length := by omega
  have h2 : min ((0 : Int)).toNat (d ++ t).length = 0 := by simp
  rw [h1, h2, List.drop_zero, List.take_left' rfl]

theorem pySlice_take (s : ByteSeq) (j : Nat) : pySlice s 0 (j : Int) = s.take j := by
  unfold pySlice pyIdx
  rw [if_neg (by omega), if_neg (by omega)]
  have h2 : min ((0 : Int)).toNat s.length = 0 := by simp
  rw [h2, List.drop_zero]
  have : ((j : Int)).toNat = j := by omega
  rw [this]
  rcases Nat.le_total j s.length with h | h
  · rw [min_eq_left h]
  · rw [min_eq_right h, List.take_length, List.take_of_length_le h]

theorem isSuffixOf_append (u v : ByteSeq) : (v.isSuffixOf (u ++ v)) = true := by
  simp [List.isSuffixOf_iff_suffix]

theorem ok_bind {α β : Type} (a : α) (f : α → Except PyError β) :
    (do let x ← (.ok a : Except PyError α); f x) = f a := rfl

theorem err_bind {α β : Type} (e : PyError) (f : α → Except PyError β) :
    (do let x ← (.error e : Except PyError α); f x) = .error e := rfl

theorem map_ok {α β : Type} (f : α → β) (a : α) :
    Except.map f (.ok a : Except PyError α) = .ok (f a) := rfl

theorem emod_sub_cast (n len : Nat) (h : 1 ≤ n) :
    ((n : Int) - (len : Int)) % (n : Int) = (((n - len % n) % n : Nat) : Int) := by
  have hr : len % n < n := Nat.mod_lt _ (by omega)
  rw [Int.sub_emod, Int.emod_self, Int.zero_sub, ← Int.natCast_mod len n,
    Int.natCast_mod (n - len % n) n, Nat.cast_sub (le_of_lt hr)]
  have hsplit : ((n : Int) - (len % n : Nat)) = -((len % n : Nat) : Int) + (n : Int) * 1 := by
    ring
  rw [hsplit, Int.add_mul_emod_self_left]

/-! ### Characterizations of the pad direction for block sizes `n ≥ 1` -/

theorem bit_pad_eq (d : ByteSeq) (n : Nat) (h : 1 ≤ n) :
    __bit_padding d (n : Int) =
      .ok (d ++ [0x80] ++ List.replicate (n - d.length % n - 1) 0) := by
  unfold __bit_padding
  rw [pyMod_coe _ _ h, ok_bind, pyRepeat_singleton]
  have harith : ((n : Int) - ((d.length % n : Nat) : Int) - 1).toNat = n - d.length % n - 1 := by
    omega
  rw [harith]

theorem zeros_pad_eq (d : ByteSeq) (n : Nat) (h : 1 ≤ n) :
    __zeros_padding d (n : Int) = .ok (d ++ List.replicate ((n - d.length % n) % n) 0) := by
  unfold __zeros_padding pyMod
  rw [if_neg (by omega : ¬((n : Nat) : Int) = 0), Int.fmod_eq_emod _ (by omega),
    emod_sub_cast n d.length h, ok_bind, pyRepeat_singleton]
  have harith : ((((n - d.length % n) % n : Nat) : Int)).toNat = (n - d.length % n) % n := by
    omega
  rw [harith]

theorem PKCS7_pad_eq (d : ByteSeq) (n : Nat) (h1 : 1 ≤ n) (h2 : n - d.length % n ≤ 255) :
    __PKCS7 d (n : Int) =
      .ok (d ++ List.replicate (n - d.length % n) (n - d.length % n)) := by
  unfold __PKCS7
  rw [pyMod_coe _ _ h1, ok_bind]
  have hmod : d.length % n < n := Nat.mod_lt _ (by omega)
  have hamount : ((n : Int) - ((d.length % n : Nat) : Int)) = ((n - d.length % n : Nat) : Int) := by
    omega
  rw [hamount]
  show (do
      let pattern ← byteLit ((n - d.length % n : Nat) : Int)
      Except.ok (d ++ pyRepeat pattern ((n - d.length % n : Nat) : Int))) =
    Except.ok (d ++ List.replicate (n - d.length % n) (n - d.length % n))
  rw [byteLit_ok _ (by omega) (by omega), ok_bind, pyRepeat_singleton]
  have harith : (((n - d.length % n : Nat) : Int)).toNat = n - d.length % n := by omega
  rw [harith]

theorem ANSI_pad_eq (d : ByteSeq) (n : Nat) (h1 : 1 ≤ n) (h2 : n - d.length % n ≤ 255) :
    __ANSI_X923 d (n : Int) =
      .ok (d ++ (List.replicate (n - d.length % n - 1) 0 ++ [n - d.length % n])) := by
  unfold __ANSI_X923
  rw [pyMod_coe _ _ h1, ok_bind]
  have hmod : d.length % n < n := Nat.mod_lt _ (by omega)
  have hamount : ((n : Int) - ((d.length % n : Nat) : Int)) = ((n - d.length % n : Nat) : Int) := by
    omega
  rw [hamount]
  show (do
      let trail ← byteLit ((n - d.length % n : Nat) : Int)
      Except.ok (d ++ (pyRepeat [0] (((n - d.length % n : Nat) : Int) - 1) ++ trail))) =
    Except.ok (d ++ (List.replicate (n - d.length % n - 1) 0 ++ [n - d.length % n]))
  rw [byteLit_ok _ (by omega) (by omega), ok_bind, pyRepeat_singleton]
  have ha1 : (((n - d.length % n : Nat) : Int) - 1).toNat = n - d.length % n - 1 := by omega
  have ha2 : (((n - d.length % n : Nat) : Int)).toNat = n - d.length % n := by omega
  rw [ha1, ha2]

theorem ISO_pad_eq (d : ByteSeq) (n : Nat) (rnd : Nat → Nat) (h1 : 1 ≤ n)
    (h2 : n - d.length % n ≤ 255) :
    __ISO_10126 d (n : Int) rnd =
      .ok (d ++ (List.range (n - d.length % n - 1)).map (fun x => rnd x % 256) ++
        [n - d.length % n]) := by
  unfold __ISO_10126
  rw [pyMod_coe _ _ h1, ok_bind]
  have hmod : d.length % n < n := Nat.mod_lt _ (by omega)
  have hamount : ((n : Int) - ((d.length % n : Nat) : Int)) = ((n - d.length % n : Nat) : Int) := by
    omega
  rw [hamount]
  show (do
      let trail ← byteLit ((n - d.length % n : Nat) : Int)
      Except.ok (d ++
        (List.range ((((n - d.length % n : Nat) : Int) - 1).toNat)).map (fun x => rnd x % 256) ++
        trail)) =
    Except.ok (d ++ (List.range (n - d.length % n - 1)).map (fun x => rnd x % 256) ++
      [n - d.length % n])
  rw [byteLit_ok _ (by omega) (by omega), ok_bind]
  have ha1 : (((n - d.length % n : Nat) : Int) - 1).toNat = n - d.length % n - 1 := by omega
  have ha2 : (((n - d.length % n : Nat) : Int)).toNat = n - d.length % n := by omega
  rw [ha1, ha2]

/-! ### Characterizations of the unpad direction on well-formed padded input -/

theorem pySlice_init (d : ByteSeq) (x : Nat) : pySlice (d ++ [x]) 0 (-1) = d := by
  unfold pySlice
  rw [pyIdx_nonneg ((d ++ [x]).length) 0 (by omega), pyIdx_neg ((d ++ [x]).length) (-1) (by omega)]
  have hlen : (d ++ [x]).length = d.length + 1 := by simp
  have h1 : (((d ++ [x]).length : Int) + -1).toNat = d.length := by omega
  have h2 : min ((0 : Int)).toNat (d ++ [x]).length = 0 := by simp
  rw [h1, h2, List.drop_zero, List.take_left' rfl]

theorem pySlice_penultimate (d t : ByteSeq) (x : Nat) :
    pySlice ((d ++ t) ++ [x]) (-((t.length : Int) + 1)) (-1) = t := by
  unfold pySlice
  rw [pyIdx_neg (((d ++ t) ++ [x]).length) (-((t.length : Int) + 1)) (by omega),
      pyIdx_neg (((d ++ t) ++ [x]).length) (-1) (by omega)]
  have hlen : ((d ++ t) ++ [x]).length = d.length + t.length + 1 := by
    simp only [List.length_append, List.length_cons, List.length_nil]
  have h1 : ((((d ++ t) ++ [x]).length : Int) + -((t.length : Int) + 1)).toNat = d.length := by
    omega
  have h2 : ((((d ++ t) ++ [x]).length : Int) + -1).toNat = d.length + t.length := by omega
  rw [h1, h2, List.take_left' (by simp), List.drop_left' rfl]

theorem pySlice_prefix' (d t : ByteSeq) (k : Int) (hk : k = (t.length : Int)) (ht : t ≠ []) :
    pySlice (d ++ t) 0 (-k) = d := by
  rw [hk]
  exact pySlice_prefix d t ht

theorem pyGet_single (c : Nat) : pyGet [c] 0 = .ok c := rfl

theorem bit_unpad_of_padded (d : ByteSeq) (k : Nat) :
    __bit_padding_unpad (d ++ [0x80] ++ List.replicate k 0) = d := by
  unfold __bit_padding_unpad
  have hstrip : rstripZero (d ++ [0x80] ++ List.replicate k 0) = d ++ [0x80] := by
    rw [rstripZero_append_replicate, rstripZero_append_ne _ _ (by omega)]
  rw [hstrip, pySlice_last, if_pos rfl, pySlice_init]

theorem PKCS7_unpad_of_padded (d : ByteSeq) (a : Nat) (h1 : 1 ≤ a) :
    __PKCS7_unpad (d ++ List.replicate a a) = .ok d := by
  obtain ⟨b, rfl⟩ : ∃ b, a = b + 1 := ⟨a - 1, by omega⟩
  unfold __PKCS7_unpad
  have hsplit : d ++ List.replicate (b + 1) (b + 1) =
      (d ++ List.replicate b (b + 1)) ++ [b + 1] := by
    rw [List.replicate_succ', ← List.append_assoc]
  rw [hsplit, pySlice_last]
  simp only [pyGet_single, ok_bind, pyRepeat_singleton]
  have hcast : (((b + 1 : Nat) : Int)).toNat = b + 1 := by omega
  rw [hcast, ← hsplit, if_pos (isSuffixOf_append d (List.replicate (b + 1) (b + 1))),
    pySlice_prefix' d (List.replicate (b + 1) (b + 1)) _ (by simp) (by simp)]

theorem ANSI_unpad_of_padded (d : ByteSeq) (a : Nat) (h1 : 1 ≤ a) :
    __ANSI_X923_unpad (d ++ (List.replicate (a - 1) 0 ++ [a])) = .ok d := by
  obtain ⟨b, rfl⟩ : ∃ b, a = b + 1 := ⟨a - 1, by omega⟩
  unfold __ANSI_X923_unpad
  have hb : b + 1 - 1 = b := by omega
  rw [hb, ← List.append_assoc, pyGet_last, ok_bind]
  unfold pyCountZero
  have hneg : -(((b + 1 : Nat) : Int)) = -(((List.replicate b 0 : ByteSeq).length : Int) + 1) := by
    simp
  rw [hneg, pySlice_penultimate, List.count_replicate_self,
    if_pos (by push_cast; omega), ← hneg, List.append_assoc,
    pySlice_prefix' (d := d) (t := List.replicate b 0 ++ [b + 1]) _ (by simp) (by simp)]

theorem ISO_unpad_of_padded (d t : ByteSeq) (a : Nat) (hlen : t.length = a - 1) (h1 : 1 ≤ a) :
    __ISO_10126_unpad (d ++ t ++ [a]) = .ok d := by
  unfold __ISO_10126_unpad
  rw [pyGet_last, ok_bind]
  have hL : (((d ++ t ++ [a]).length : Nat) : Int) - ((a : Nat) : Int) = ((d.length : Nat) : Int) := by
    simp [hlen]
    omega
  rw [hL, pySlice_take, List.append_assoc, List.take_left' rfl]

theorem fmod_neg_bounds (a L : Int) (hL : L < 0) : L < Int.fmod a L ∧ Int.fmod a L ≤ 0 := by
  cases L with
  | ofNat p =>
    rw [Int.ofNat_eq_natCast] at hL
    omega
  | negSucc k =>
    cases a with
    | ofNat m =>
      cases m with
      | zero =>
        rw [show Int.fmod (Int.ofNat 0) (Int.negSucc k) = 0 from rfl, Int.negSucc_eq]
        omega
      | succ m' =>
        rw [show Int.fmod (Int.ofNat (m' + 1)) (Int.negSucc k) =
            Int.subNatNat (m' % (k + 1)) k from rfl,
          Int.subNatNat_eq_coe, Int.negSucc_eq]
        have hlt : m' % (k + 1) < k + 1 := Nat.mod_lt _ (by omega)
        omega
    | negSucc m =>
      rw [show Int.fmod (Int.negSucc m) (Int.negSucc k) =
          -(Int.ofNat ((m + 1) % (k + 1))) from rfl,
        Int.negSucc_eq, Int.ofNat_eq_natCast]
      have hlt : (m + 1) % (k + 1) < k + 1 := Nat.mod_lt _ (by omega)
      omega

/-! ### Dispatch reductions -/

theorem bit_padding_pad (d : ByteSeq) (l : Int) :
    bit_padding d PAD (some l) = __bit_padding d l := by
  unfold bit_padding
  rw [if_pos rfl]

theorem bit_padding_unpad (d : ByteSeq) :
    bit_padding d UNPAD none = .ok (__bit_padding_unpad d) := by
  unfold bit_padding
  rw [if_neg (by decide), if_pos rfl]

theorem zeros_padding_pad (d : ByteSeq) (l : Int) :
    zeros_padding d PAD (some l) = __zeros_padding d l := by
  unfold zeros_padding
  rw [if_pos rfl]

theorem zeros_padding_unpad (d : ByteSeq) :
    zeros_padding d UNPAD none = .ok (__zeros_padding_unpad d) := by
  unfold zeros_padding
  rw [if_neg (by decide), if_pos rfl]

theorem PKCS7_pad (d : ByteSeq) (l : Int) : PKCS7 d PAD (some l) = __PKCS7 d l := by
  unfold PKCS7
  rw [if_pos rfl]

theorem PKCS7_unpad (d : ByteSeq) : PKCS7 d UNPAD none = __PKCS7_unpad d := by
  unfold PKCS7
  rw [if_neg (by decide), if_pos rfl]

theorem ANSI_X923_pad (d : ByteSeq) (l : Int) : ANSI_X923 d PAD (some l) = __ANSI_X923 d l := by
  unfold ANSI_X923
  rw [if_pos rfl]

theorem ANSI_X923_unpad (d : ByteSeq) : ANSI_X923 d UNPAD none = __ANSI_X923_unpad d := by
  unfold ANSI_X923
  rw [if_neg (by decide), if_pos rfl]

theorem ISO_10126_pad (d : ByteSeq) (l : Int) (rnd : Nat → Nat) :
    ISO_10126 d PAD (some l) rnd = __ISO_10126 d l rnd := by
  unfold ISO_10126
  rw [if_pos rfl]

theorem ISO_10126_unpad (d : ByteSeq) (rnd : Nat → Nat) :
    ISO_10126 d UNPAD none rnd = __ISO_10126_unpad d := by
  unfold ISO_10126
  rw [if_neg (by decide), if_pos rfl]

theorem pySlice_zero (s : ByteSeq) : pySlice s 0 0 = [] := by
  unfold pySlice
  rw [pyIdx_nonneg s.length 0 (by omega)]
  simp

/-! ### Claim theorems -/

/-- C2 (code_bug evidence): on a PKCS7 padding mismatch — here the input
`b'\x01\x02'`, whose trailing bytes do not match the declared pattern
`b'\x02\x02'` — unpad prints a warning and returns the input unchanged as a
successful result, instead of failing with a catchable padding error. -/
theorem pkcs7_unpad_mismatch_returns_input :
    PKCS7 [1, 2] UNPAD none = .ok [1, 2] := rfl

/-- C6 (counterexample): ISO 10126 unpad on the one-byte input `b'\x05'`
returns the empty sequence, whose length `0` is not the input length minus the
declared amount (`1 - 5 = -4`), refuting the claim as stated for every byte
sequence. -/
theorem iso10126_unpad_length_mismatch :
    ISO_10126 [5] UNPAD none (fun _ => 0) = .ok [] ∧
    ¬((([] : ByteSeq).length : Int) = (([5] : ByteSeq).length : Int) - ((5 : Nat) : Int)) :=
  ⟨rfl, by decide⟩

/-- C6 (amended): for every non-empty byte sequence whose last byte `b` is at
most the input length, ISO 10126 unpad reads `b` as the amount and returns the
input with exactly `b` trailing bytes removed — the output is the prefix of
length `len - b` — with no verification of the removed bytes. (On the empty
sequence unpad raises IndexError, and when `b` exceeds the length the negative
Python slice index wraps instead of removing everything.) -/
theorem iso10126_unpad_removes_amount (l : ByteSeq) (b : Nat) (rnd : Nat → Nat)
    (hb : b ≤ l.length + 1) :
    ISO_10126 (l ++ [b]) UNPAD none rnd = .ok ((l ++ [b]).take ((l ++ [b]).length - b)) ∧
    ((l ++ [b]).take ((l ++ [b]).length - b)).length = (l ++ [b]).length - b := by
  rw [ISO_10126_unpad]
  unfold __ISO_10126_unpad
  rw [pyGet_last, ok_bind]
  have hlen : (l ++ [b]).length = l.length + 1 := by simp
  have hcast : (((l ++ [b]).length : Nat) : Int) - ((b : Nat) : Int)
      = (((l ++ [b]).length - b : Nat) : Int) := by omega
  rw [hcast, pySlice_take]
  refine ⟨rfl, ?_⟩
  rw [List.length_take]
  omega

/-- C6 (witness): removing the declared two trailing bytes from `b'\x07\x08\x09\x02'`. -/
theorem iso10126_unpad_removes_amount_witness :
    ISO_10126 [7, 8, 9, 2] UNPAD none (fun _ => 0) = .ok [7, 8] ∧
    (([7, 8] : ByteSeq)).length = 2 :=
  iso10126_unpad_removes_amount [7, 8, 9] 2 (fun _ => 0) (by decide)

/-- C8: PKCS7 unpad on any non-empty input ending in a `0x00` byte returns the
empty byte sequence: the declared amount is `0`, the suffix check against the
empty pattern passes vacuously, and the slice `padded[:-0]` is `padded[:0]`. -/
theorem pkcs7_unpad_trailing_zero_empties (d : ByteSeq) :
    PKCS7 (d ++ [0]) UNPAD none = .ok [] := by
  rw [PKCS7_unpad]
  unfold __PKCS7_unpad
  rw [pySlice_last]
  simp only [pyGet_single, ok_bind, pyRepeat_singleton]
  rw [if_pos (by simp [List.isSuffixOf_iff_suffix])]
  rw [show (-(((0 : Nat)) : Int)) = (0 : Int) by decide]
  exact congrArg Except.ok (pySlice_zero (d ++ [0]))

/-- C9: unpad on the empty byte sequence returns the empty sequence for
BitPadding and ZeroPadding, but raises IndexError for PKCS7, ANSI X9.23 and
ISO 10126, each of which reads the last byte of its input before any other
check. -/
theorem unpad_empty_input :
    bit_padding [] UNPAD none = .ok [] ∧
    zeros_padding [] UNPAD none = .ok [] ∧
    PKCS7 [] UNPAD none = .error .indexError ∧
    ANSI_X923 [] UNPAD none = .error .indexError ∧
    ISO_10126 [] UNPAD none (fun _ => 0) = .error .indexError :=
  ⟨rfl, rfl, rfl, rfl, rfl⟩

/-- C10: whenever the ANSI X9.23 zero-byte check fails — the count of zero
bytes among the `amount - 1` bytes before the trailer differs from
`amount - 1` — unpad does not return the input: formatting the diagnostic
message calls `bytes.count` with a `str` argument, which raises TypeError, so
the mismatch branch never completes normally. -/
theorem ansi_unpad_mismatch_type_error (l : ByteSeq) (b : Nat)
    (h : ¬((pyCountZero (l ++ [b]) (-((b : Nat) : Int)) (-1) : Int) = ((b : Nat) : Int) - 1)) :
    ANSI_X923 (l ++ [b]) UNPAD none = .error .typeError := by
  rw [ANSI_X923_unpad]
  unfold __ANSI_X923_unpad
  rw [pyGet_last, ok_bind, if_neg h]
  rfl

/-- C10 (witness): the mismatching input `b'\x01\x02'` raises TypeError. -/
theorem ansi_unpad_mismatch_type_error_witness :
    ANSI_X923 [1, 2] UNPAD none = .error .typeError :=
  ansi_unpad_mismatch_type_error [1] 2 (by decide)

/-- C1 (counterexample): with block size `256` and the empty input, PKCS7 pad
computes `amount = 256`, so `bytearray([amount])` raises ValueError and the
round-trip cannot return the original data. -/
theorem unpad_pad_roundtrip_large_amount_fails :
    (PKCS7 [] PAD (some 256)).bind (fun p => PKCS7 p UNPAD none) = .error .valueErrorByteRange ∧
    ¬((PKCS7 [] PAD (some 256)).bind (fun p => PKCS7 p UNPAD none) = .ok ([] : ByteSeq)) :=
  ⟨rfl, fun h => Except.noConfusion h⟩

/-- C1 (amended): for every byte sequence `d` and block size `n ≥ 1`,
`unpad(pad(d, n)) = d` holds for BitPadding unconditionally, and for PKCS7,
ANSI X9.23 and ISO 10126 whenever the pad amount `n - len(d) % n` is at most
`255` (in particular for every `n ≤ 255`); for a larger amount, pad raises
ValueError from the byte-range check instead. This covers empty `d`, `d` of
non-zero length a multiple of `n`, and unaligned `d`. -/
theorem unpad_pad_roundtrip (d : ByteSeq) (n : Nat) (rnd : Nat → Nat) (h1 : 1 ≤ n) :
    (bit_padding d PAD (some (n : Int))).bind (fun p => bit_padding p UNPAD none) = .ok d ∧
    (n - d.length % n ≤ 255 →
      (PKCS7 d PAD (some (n : Int))).bind (fun p => PKCS7 p UNPAD none) = .ok d ∧
      (ANSI_X923 d PAD (some (n : Int))).bind (fun p => ANSI_X923 p UNPAD none) = .ok d ∧
      (ISO_10126 d PAD (some (n : Int)) rnd).bind
        (fun p => ISO_10126 p UNPAD none rnd) = .ok d) := by
  have hmod : d.length % n < n := Nat.mod_lt _ (by omega)
  constructor
  · rw [bit_padding_pad, bit_pad_eq d n h1]
    show bit_padding (d ++ [0x80] ++ List.replicate (n - d.length % n - 1) 0) UNPAD none = .ok d
    rw [bit_padding_unpad, bit_unpad_of_padded]
  · intro h2
    refine ⟨?_, ?_, ?_⟩
    · rw [PKCS7_pad, PKCS7_pad_eq d n h1 h2]
      show PKCS7 (d ++ List.replicate (n - d.length % n) (n - d.length % n)) UNPAD none = .ok d
      rw [PKCS7_unpad, PKCS7_unpad_of_padded d _ (by omega)]
    · rw [ANSI_X923_pad, ANSI_pad_eq d n h1 h2]
      show ANSI_X923
          (d ++ (List.replicate (n - d.length % n - 1) 0 ++ [n - d.length % n])) UNPAD none =
        .ok d
      rw [ANSI_X923_unpad, ANSI_unpad_of_padded d _ (by omega)]
    · rw [ISO_10126_pad, ISO_pad_eq d n rnd h1 h2]
      show ISO_10126
          (d ++ (List.range (n - d.length % n - 1)).map (fun x => rnd x % 256) ++
            [n - d.length % n]) UNPAD none rnd = .ok d
      rw [ISO_10126_unpad, ISO_unpad_of_padded d _ _ (by simp) (by omega)]

/-- C1 (witness): round-tripping `b'\x01\x02\x03'` with block size 4 under all
four schemes. -/
theorem unpad_pad_roundtrip_witness :
    (bit_padding [1, 2, 3] PAD (some 4)).bind (fun p => bit_padding p UNPAD none) =
      .ok [1, 2, 3] ∧
    ((PKCS7 [1, 2, 3] PAD (some 4)).bind (fun p => PKCS7 p UNPAD none) = .ok [1, 2, 3] ∧
     (ANSI_X923 [1, 2, 3] PAD (some 4)).bind (fun p => ANSI_X923 p UNPAD none) = .ok [1, 2, 3] ∧
     (ISO_10126 [1, 2, 3] PAD (some 4) (fun _ => 7)).bind
       (fun p => ISO_10126 p UNPAD none (fun _ => 7)) = .ok [1, 2, 3]) :=
  ⟨(unpad_pad_roundtrip [1, 2, 3] 4 (fun _ => 7) (by decide)).1,
   (unpad_pad_roundtrip [1, 2, 3] 4 (fun _ => 7) (by decide)).2 (by decide)⟩

/-- C4 (counterexample): with block size `256` and the empty input, ANSI X9.23
pad raises ValueError from the byte-range check, so no padded output (and no
aligned length) exists, refuting the all-schemes alignment claim for every
`n ≥ 1`. -/
theorem pad_alignment_large_amount_fails :
    ANSI_X923 [] PAD (some 256) = .error .valueErrorByteRange := rfl

/-- C4 (amended): for `n ≥ 1`, the padded length is `len(d) + amount` with
`amount = n - len(d) % n` for BitPadding (always), and for PKCS7, ANSI X9.23
and ISO 10126 whenever `amount ≤ 255` (otherwise pad raises ValueError);
ZeroPadding yields `len(d) + (amount % n)`. These lengths are multiples of
`n`; the four full-block schemes strictly grow the input, while ZeroPadding
adds nothing when `len(d)` is already a multiple of `n`. -/
theorem pad_length_alignment (d : ByteSeq) (n : Nat) (rnd : Nat → Nat) (h1 : 1 ≤ n) :
    (bit_padding d PAD (some (n : Int))).map List.length =
      .ok (d.length + (n - d.length % n)) ∧
    (zeros_padding d PAD (some (n : Int))).map List.length =
      .ok (d.length + (n - d.length % n) % n) ∧
    (n - d.length % n ≤ 255 →
      (PKCS7 d PAD (some (n : Int))).map List.length = .ok (d.length + (n - d.length % n)) ∧
      (ANSI_X923 d PAD (some (n : Int))).map List.length =
        .ok (d.length + (n - d.length % n)) ∧
      (ISO_10126 d PAD (some (n : Int)) rnd).map List.length =
        .ok (d.length + (n - d.length % n))) ∧
    (d.length + (n - d.length % n)) % n = 0 ∧
    d.length < d.length + (n - d.length % n) ∧
    (d.length + (n - d.length % n) % n) % n = 0 ∧
    (d.length % n = 0 → (n - d.length % n) % n = 0) := by
  have hmod : d.length % n < n := Nat.mod_lt _ (by omega)
  have hdm := Nat.div_add_mod d.length n
  have key : d.length + (n - d.length % n) = n * (d.length / n + 1) := by
    rw [Nat.mul_add, Nat.mul_one]
    omega
  have align : (d.length + (n - d.length % n)) % n = 0 := by
    rw [key, Nat.mul_mod_right]
  have alignZ : (d.length + (n - d.length % n) % n) % n = 0 := by
    by_cases hr : d.length % n = 0
    · have hA : n - d.length % n = n := by omega
      rw [hA, Nat.mod_self, Nat.add_zero]
      exact hr
    · have hA : (n - d.length % n) % n = n - d.length % n := Nat.mod_eq_of_lt (by omega)
      rw [hA]
      exact align
  refine ⟨?_, ?_, ?_, align, by omega, alignZ, ?_⟩
  · rw [bit_padding_pad, bit_pad_eq d n h1]
    rw [map_ok List.length]
    refine congrArg Except.ok ?_
    simp only [List.length_append, List.length_cons, List.length_nil, List.length_replicate]
    omega
  · rw [zeros_padding_pad, zeros_pad_eq d n h1]
    rw [map_ok List.length]
    refine congrArg Except.ok ?_
    simp only [List.length_append, List.length_replicate]
  · intro h2
    refine ⟨?_, ?_, ?_⟩
    · rw [PKCS7_pad, PKCS7_pad_eq d n h1 h2]
      rw [map_ok List.length]
      refine congrArg Except.ok ?_
      simp only [List.length_append, List.length_replicate]
    · rw [ANSI_X923_pad, ANSI_pad_eq d n h1 h2]
      rw [map_ok List.length]
      refine congrArg Except.ok ?_
      simp only [List.length_append, List.length_cons, List.length_nil, List.length_replicate]
      omega
    · rw [ISO_10126_pad, ISO_pad_eq d n rnd h1 h2]
      rw [map_ok List.length]
      refine congrArg Except.ok ?_
      simp only [List.length_append, List.length_cons, List.length_nil, List.length_map,
        List.length_range]
      omega
  · intro hr
    have hA : n - d.length % n = n := by omega
    rw [hA, Nat.mod_self]

/-- C4 (witness): an aligned three-byte input with block size 3 gains a full
extra block under the four full-block schemes and nothing under ZeroPadding. -/
theorem pad_length_alignment_witness :
    (bit_padding [9, 9, 9] PAD (some 3)).map List.length = .ok 6 ∧
    (zeros_padding [9, 9, 9] PAD (some 3)).map List.length = .ok 3 ∧
    ((PKCS7 [9, 9, 9] PAD (some 3)).map List.length = .ok 6 ∧
     (ANSI_X923 [9, 9, 9] PAD (some 3)).map List.length = .ok 6 ∧
     (ISO_10126 [9, 9, 9] PAD (some 3) (fun _ => 1)).map List.length = .ok 6) ∧
    (6 : Nat) % 3 = 0 ∧
    (3 : Nat) < 6 ∧
    (3 : Nat) % 3 = 0 ∧
    (3 - (3 : Nat) % 3) % 3 = 0 := by
  obtain ⟨a1, a2, a3, a4, a5, a6, a7⟩ := pad_length_alignment [9, 9, 9] 3 (fun _ => 1) (by decide)
  exact ⟨a1, a2, a3 (by decide), a4, a5, a6, a7 (by decide)⟩

/-- C5: for every byte sequence `d` and block size `n ≥ 1`, the ZeroPadding
round-trip returns `d` with all trailing zero bytes stripped; in particular it
returns `d` itself exactly when `d` does not end in a zero-valued byte. -/
theorem zeros_padding_roundtrip (d : ByteSeq) (n : Nat) (h1 : 1 ≤ n) :
    (zeros_padding d PAD (some (n : Int))).bind (fun p => zeros_padding p UNPAD none) =
      .ok (rstripZero d) ∧
    (d.getLast? ≠ some 0 →
      (zeros_padding d PAD (some (n : Int))).bind (fun p => zeros_padding p UNPAD none) =
        .ok d) := by
  have main : (zeros_padding d PAD (some (n : Int))).bind
      (fun p => zeros_padding p UNPAD none) = .ok (rstripZero d) := by
    rw [zeros_padding_pad, zeros_pad_eq d n h1]
    show zeros_padding (d ++ List.replicate ((n - d.length % n) % n) 0) UNPAD none =
      .ok (rstripZero d)
    rw [zeros_padding_unpad]
    unfold __zeros_padding_unpad
    rw [rstripZero_append_replicate]
  exact ⟨main, fun h => by rw [main, rstripZero_eq_self d h]⟩

/-- C5 (witness): `b'\x01\x00'` loses its original trailing zero, while
`b'\x01\x02'` round-trips unchanged. -/
theorem zeros_padding_roundtrip_witness :
    (zeros_padding [1, 0] PAD (some 2)).bind (fun p => zeros_padding p UNPAD none) =
      .ok [1] ∧
    (zeros_padding [1, 2] PAD (some 2)).bind (fun p => zeros_padding p UNPAD none) =
      .ok [1, 2] :=
  ⟨(zeros_padding_roundtrip [1, 0] 2 (by decide)).1,
   (zeros_padding_roundtrip [1, 2] 2 (by decide)).2 (by decide)⟩

/-- C7 (counterexample): with block size `300` and the empty input, PKCS7 pad
computes `amount = 300` and raises ValueError from `bytearray([amount])`
instead of returning `d` followed by `amount` bytes of value `amount`. -/
theorem pkcs7_pad_layout_large_amount_fails :
    PKCS7 [] PAD (some 300) = .error .valueErrorByteRange := rfl

/-- C7 (amended): for every byte sequence `d` and block size `n ≥ 1` whose pad
amount `n - (len(d) mod n)` is at most 255, PKCS7 pad returns `d` followed by
exactly `amount` bytes each holding the value `amount`, and `amount` lies in
`1..n`; for a larger amount, pad raises ValueError. -/
theorem pkcs7_pad_layout (d : ByteSeq) (n : Nat) (h1 : 1 ≤ n)
    (h2 : n - d.length % n ≤ 255) :
    PKCS7 d PAD (some (n : Int)) =
      .ok (d ++ List.replicate (n - d.length % n) (n - d.length % n)) ∧
    1 ≤ n - d.length % n ∧ n - d.length % n ≤ n := by
  have hmod : d.length % n < n := Nat.mod_lt _ (by omega)
  refine ⟨?_, by omega, by omega⟩
  rw [PKCS7_pad, PKCS7_pad_eq d n h1 h2]

/-- C7 (witness): padding the empty sequence with block size 4 yields
`b'\x04\x04\x04\x04'`. -/
theorem pkcs7_pad_layout_witness :
    PKCS7 [] PAD (some 4) = .ok [4, 4, 4, 4] ∧ (1 : Nat) ≤ 4 ∧ (4 : Nat) ≤ 4 :=
  pkcs7_pad_layout [] 4 (by decide) (by decide)

/-- C3 (counterexample): BitPadding invoked in the pad direction with the
negative block size `-1` does not fail: it returns the padded output
`b'\x80'`, so a negative block size is not rejected with an invalid-argument
error. -/
theorem pad_negative_block_size_no_error :
    bit_padding [] PAD (some (-1)) = .ok [0x80] := rfl

/-- C3 (amended): in the pad direction a missing (`None`) block size fails
fast with `ValueError("Supply a valid length")` for every scheme, and a zero
block size fails with ZeroDivisionError from `% 0`; but a negative block size
is not validated: BitPadding and ZeroPadding return padded output without
error (the marker byte alone, resp. the input unchanged), while PKCS7,
ANSI X9.23 and ISO 10126 only fail incidentally, with the ValueError raised by
`bytearray([amount])` on the negative amount. -/
theorem pad_block_size_validation (d : ByteSeq) (L : Int) (rnd : Nat → Nat) (hL : L < 0) :
    bit_padding d PAD none = .error .valueErrorLength ∧
    zeros_padding d PAD none = .error .valueErrorLength ∧
    PKCS7 d PAD none = .error .valueErrorLength ∧
    ANSI_X923 d PAD none = .error .valueErrorLength ∧
    ISO_10126 d PAD none rnd = .error .valueErrorLength ∧
    bit_padding d PAD (some 0) = .error .zeroDivisionError ∧
    zeros_padding d PAD (some 0) = .error .zeroDivisionError ∧
    PKCS7 d PAD (some 0) = .error .zeroDivisionError ∧
    ANSI_X923 d PAD (some 0) = .error .zeroDivisionError ∧
    ISO_10126 d PAD (some 0) rnd = .error .zeroDivisionError ∧
    bit_padding d PAD (some L) = .ok (d ++ [0x80]) ∧
    zeros_padding d PAD (some L) = .ok d ∧
    PKCS7 d PAD (some L) = .error .valueErrorByteRange ∧
    ANSI_X923 d PAD (some L) = .error .valueErrorByteRange ∧
    ISO_10126 d PAD (some L) rnd = .error .valueErrorByteRange := by
  have hbit : bit_padding d PAD (some L) = .ok (d ++ [0x80]) := by
    rw [bit_padding_pad]
    unfold __bit_padding pyMod
    rw [if_neg (by omega : ¬L = 0), ok_bind, pyRepeat_singleton]
    have hf := fmod_neg_bounds (d.length : Int) L hL
    have h0 : (L - Int.fmod (d.length : Int) L - 1).toNat = 0 := by omega
    rw [h0, List.replicate_zero, List.append_nil]
  have hzeros : zeros_padding d PAD (some L) = .ok d := by
    rw [zeros_padding_pad]
    unfold __zeros_padding pyMod
    rw [if_neg (by omega : ¬L = 0), ok_bind, pyRepeat_singleton]
    have hf := fmod_neg_bounds (L - (d.length : Int)) L hL
    have h0 : (Int.fmod (L - (d.length : Int)) L).toNat = 0 := by omega
    rw [h0, List.replicate_zero, List.append_nil]
  have hpkcs : PKCS7 d PAD (some L) = .error .valueErrorByteRange := by
    rw [PKCS7_pad]
    unfold __PKCS7 pyMod
    rw [if_neg (by omega : ¬L = 0), ok_bind]
    have hf := fmod_neg_bounds (d.length : Int) L hL
    show (do
        let pattern ← byteLit (L - Int.fmod (d.length : Int) L)
        Except.ok (d ++ pyRepeat pattern (L - Int.fmod (d.length : Int) L))) =
      .error .valueErrorByteRange
    rw [byteLit_err _ (by omega), err_bind]
  have hansi : ANSI_X923 d PAD (some L) = .error .valueErrorByteRange := by
    rw [ANSI_X923_pad]
    unfold __ANSI_X923 pyMod
    rw [if_neg (by omega : ¬L = 0), ok_bind]
    have hf := fmod_neg_bounds (d.length : Int) L hL
    show (do
        let trail ← byteLit (L - Int.fmod (d.length : Int) L)
        Except.ok (d ++ (pyRepeat [0x00] (L - Int.fmod (d.length : Int) L - 1) ++ trail))) =
      .error .valueErrorByteRange
    rw [byteLit_err _ (by omega), err_bind]
  have hiso : ISO_10126 d PAD (some L) rnd = .error .valueErrorByteRange := by
    rw [ISO_10126_pad]
    unfold __ISO_10126 pyMod
    rw [if_neg (by omega : ¬L = 0), ok_bind]
    have hf := fmod_neg_bounds (d.length : Int) L hL
    show (do
        let trail ← byteLit (L - Int.fmod (d.length : Int) L)
        Except.ok (d ++
          (List.range ((L - Int.fmod (d.length : Int) L - 1).toNat)).map
            (fun x => rnd x % 256) ++ trail)) =
      .error .valueErrorByteRange
    rw [byteLit_err _ (by omega), err_bind]
  exact ⟨rfl, rfl, rfl, rfl, rfl, rfl, rfl, rfl, rfl, rfl, hbit, hzeros, hpkcs, hansi, hiso⟩

/-- C3 (witness): the validation behaviour at `d = b'\x01\x02\x03'` and block
size `-1`. -/
theorem pad_block_size_validation_witness :
    bit_padding [1, 2, 3] PAD none = .error .valueErrorLength ∧
    zeros_padding [1, 2, 3] PAD none = .error .valueErrorLength ∧
    PKCS7 [1, 2, 3] PAD none = .error .valueErrorLength ∧
    ANSI_X923 [1, 2, 3] PAD none = .error .valueErrorLength ∧
    ISO_10126 [1, 2, 3] PAD none (fun _ => 0) = .error .valueErrorLength ∧
    bit_padding [1, 2, 3] PAD (some 0) = .error .zeroDivisionError ∧
    zeros_padding [1, 2, 3] PAD (some 0) = .error .zeroDivisionError ∧
    PKCS7 [1, 2, 3] PAD (some 0) = .error .zeroDivisionError ∧
    ANSI_X923 [1, 2, 3] PAD (some 0) = .error .zeroDivisionError ∧
    ISO_10126 [1, 2, 3] PAD (some 0) (fun _ => 0) = .error .zeroDivisionError ∧
    bit_padding [1, 2, 3] PAD (some (-1)) = .ok [1, 2, 3, 0x80] ∧
    zeros_padding [1, 2, 3] PAD (some (-1)) = .ok [1, 2, 3] ∧
    PKCS7 [1, 2, 3] PAD (some (-1)) = .error .valueErrorByteRange ∧
    ANSI_X923 [1, 2, 3] PAD (some (-1)) = .error .valueErrorByteRange ∧
    ISO_10126 [1, 2, 3] PAD (some (-1)) (fun _ => 0) = .error .valueErrorByteRange :=
  pad_block_size_validation [1, 2, 3] (-1) (fun _ => 0) (by decide)

end Padding
